import Mathlib

/-!
Verification of the openclaw CLI core (Rust) against its natural-language
specification.  The Rust sources are shallowly embedded: pure functions become
Lean functions, stateful streaming adapters become explicit state-passing step
functions, machine integers become Nat, fallible code returns Option/Except.
External library calls (serde_json parsing, uuid generation) are taken as
parameters or modelled (fresh-id counter), as noted at each definition.

Components embedded here:
  * src/tools/policy.rs        is_command_allowed
  * src/llm/streaming.rs       SSE frame parser (SseStream)
  * src/llm/anthropic.rs       AnthropicEventStream, build_request_body
  * src/llm/openai.rs          OpenAiEventStream
  * src/llm/ollama.rs          OllamaNdjsonStream
  * src/agent/context.rs       compact_messages, summarize_via_llm
-/

set_option maxHeartbeats 1000000

namespace OpenClaw

/-! ## JSON values (serde_json::Value)

Numbers are modelled as rationals (serde uses i64/u64/f64; no claim compares
numeric payloads beyond integers).  Objects are association lists in insertion
order with unique keys. -/

inductive Json where
  | null : Json
  | bool (b : Bool) : Json
  | num (q : ℚ) : Json
  | str (s : String) : Json
  | arr (elems : List Json) : Json
  | obj (fields : List (String × Json)) : Json
  deriving Repr

/-- Field access `value["key"]`: returns Null when absent or not an object,
mirroring the serde_json Index impl for str. -/
def Json.getField : Json → String → Json
  | .obj fields, k => (fields.lookup k).getD .null
  | _, _ => .null

/-- Array access `value[i]`: returns Null when out of range or not an array,
mirroring the serde_json Index impl for usize. -/
def Json.getIdx : Json → Nat → Json
  | .arr xs, i => (xs.get? i).getD .null
  | _, _ => .null

/-- Value::as_str. -/
def Json.asStr : Json → Option String
  | .str s => some s
  | _ => none

/-- Value::as_u64: defined on non-negative integral numbers. -/
def Json.asNat : Json → Option Nat
  | .num q => if q.den = 1 ∧ 0 ≤ q.num then some q.num.toNat else none
  | _ => none

/-- Value::as_object (we only need its is-an-object test and the fields). -/
def Json.asObj : Json → Option (List (String × Json))
  | .obj fields => some fields
  | _ => none

/-- Value::as_array. -/
def Json.asArr : Json → Option (List Json)
  | .arr xs => some xs
  | _ => none

/-- Map-style field update used for `body["k"] = v` on objects: replace the
first binding of the key, else append.  (The source only ever applies it to
objects.) -/
def setFieldA : List (String × Json) → String → Json → List (String × Json)
  | [], k, v => [(k, v)]
  | (k0, v0) :: rest, k, v =>
      if k0 = k then (k, v) :: rest else (k0, v0) :: setFieldA rest k v

/-- `value["k"] = v` (serde IndexMut); identity on non-objects, which the
source never does. -/
def Json.setField : Json → String → Json → Json
  | .obj fields, k, v => .obj (setFieldA fields k v)
  | j, _, _ => j

/-- Field lookup that distinguishes absent from Null (Map::get). -/
def Json.lookupField : Json → String → Option Json
  | .obj fields, k => fields.lookup k
  | _, _ => none

/-! ## src/tools/policy.rs — is_command_allowed

Commands are embedded as lists of characters.  Rust str::to_lowercase is
modelled on the ASCII range (all inputs of interest are ASCII). -/

/-- char::is_whitespace restricted to the ASCII range (the only range the
claims exercise). -/
def isWhite (c : Char) : Bool :=
  c = ' ' || c = '\t' || c = '\n' || c = '\r' ||
  c = Char.ofNat 11 || c = Char.ofNat 12

/-- Containment of a single character (str::contains(char)). -/
def containsChar (c : Char) (l : List Char) : Bool := l.contains c

/-- Containment of a two-character needle (str::contains("xy")). -/
def containsPair (a b : Char) : List Char → Bool
  | [] => false
  | [_] => false
  | x :: y :: rest => (x = a && y = b) || containsPair a b (y :: rest)

/-- The shell-chaining test of is_command_allowed (policy.rs lines 51-60). -/
def hasChain (command : List Char) : Bool :=
  containsChar ';' command ||
  containsPair '&' '&' command ||
  containsChar '|' command ||
  containsChar (Char.ofNat 96) command ||
  containsPair '$' '(' command ||
  containsChar '\n' command ||
  containsChar '\r' command ||
  containsPair '<' '<' command ||
  containsPair '<' '(' command ||
  containsPair '>' '(' command

/-- str::trim. -/
def trimChars (l : List Char) : List Char :=
  ((l.dropWhile isWhite).reverse.dropWhile isWhite).reverse

/-- str::trim on a String (character-level, Rust whitespace set). -/
def rustTrim (s : String) : String := String.mk (trimChars s.toList)

/-- ASCII lowercasing of one character (str::to_lowercase on ASCII input). -/
def asciiLower (c : Char) : Char :=
  if 65 ≤ c.toNat && c.toNat ≤ 90 then Char.ofNat (c.toNat + 32) else c

/-- Split a character list on a separator character. -/
def splitOnChar (sep : Char) : List Char → List (List Char)
  | [] => [[]]
  | c :: rest =>
      let r := splitOnChar sep rest
      if c = sep then [] :: r
      else
        match r with
        | [] => [[c]]
        | h :: t => (c :: h) :: t

/-- std::path::Path::file_name on Unix: the last normal component; None when
the path is empty, is root, or terminates in a parent-directory component.
Empty and current-directory components are skipped. -/
def rustFileName (tok : List Char) : Option (List Char) :=
  let comps := (splitOnChar '/' tok).filter (fun c => !c.isEmpty && c ≠ ['.'])
  match comps.getLast? with
  | none => none
  | some c => if c = ['.', '.'] then none else some c

/-- List-of-characters version of str::starts_with. -/
def listStartsWith : List Char → List Char → Bool
  | _, [] => true
  | [], _ :: _ => false
  | c :: cs, p :: ps => c = p && listStartsWith cs ps

/-- str::ends_with(' '). -/
def endsWithSpace (p : List Char) : Bool :=
  match p.getLast? with
  | some c => c = ' '
  | none => false

/-- policy.rs is_command_allowed, embedded over character lists. -/
def is_command_allowed (command : List Char) (allowlist : List (List Char))
    (security : String) : Bool :=
  match security with
  | "full" => true
  | "deny" => false
  | "allowlist" =>
      let has_chain := hasChain command
      let trimmed := trimChars command
      let first_token := trimmed.takeWhile (fun c => !isWhite c)
      let bin_name := ((rustFileName first_token).getD first_token).map asciiLower
      allowlist.any (fun pattern =>
        let p := pattern.map asciiLower
        if endsWithSpace p then
          listStartsWith (trimmed.map asciiLower) p && !has_chain
        else
          bin_name == p && !has_chain)
  | _ => false

/-- The rejection set exactly as the claim words it (no carriage return). -/
def claimBadChars (command : List Char) : Bool :=
  containsChar ';' command ||
  containsPair '&' '&' command ||
  containsChar '|' command ||
  containsChar (Char.ofNat 96) command ||
  containsPair '$' '(' command ||
  containsChar '\n' command ||
  containsPair '<' '<' command ||
  containsPair '<' '(' command ||
  containsPair '>' '(' command

/-- The claim C9 acceptance predicate, following the claim text literally:
reject on the nine listed metacharacter patterns; otherwise accept exactly
when the basename of the first token equals an allowlist entry
case-insensitively, or the command starts with an allowlist prefix pattern
ending in a space. -/
def allowlistClaimAllowed (command : List Char) (allowlist : List (List Char)) : Bool :=
  if claimBadChars command then false
  else
    let first_token := (command.dropWhile isWhite).takeWhile (fun c => !isWhite c)
    let bin_name := ((rustFileName first_token).getD first_token).map asciiLower
    allowlist.any (fun pattern =>
      if endsWithSpace pattern then
        listStartsWith command pattern
      else
        bin_name == pattern.map asciiLower)

/-- The amended C9 acceptance predicate: as the claim, but the rejection set
also contains carriage return, and the prefix-pattern branch compares the
trimmed command with the pattern, ASCII-case-insensitively. -/
def allowlistAmendedAllowed (command : List Char) (allowlist : List (List Char)) : Bool :=
  if hasChain command then false
  else
    let trimmed := trimChars command
    let first_token := trimmed.takeWhile (fun c => !isWhite c)
    let bin_name := ((rustFileName first_token).getD first_token).map asciiLower
    allowlist.any (fun pattern =>
      let p := pattern.map asciiLower
      if endsWithSpace p then
        listStartsWith (trimmed.map asciiLower) p
      else
        bin_name == p)

/-! ## src/llm/streaming.rs — the SSE frame parser

Strings are embedded as lists of characters (the SseStream buffer is a Rust
String, i.e. decoded text), and the raw network chunks as lists of bytes
(Nat < 256).  String::from_utf8_lossy is embedded as utf8Lossy below. -/

/-- A parsed SSE event (streaming.rs SseEvent). -/
structure SseEventM where
  event_type : Option (List Char)
  data : List Char
  deriving DecidableEq, Repr

/-- The SseStream parser state (streaming.rs lines 34-40). -/
structure SseStateM where
  buffer : List Char
  current_event_type : Option (List Char)
  current_data : List (List Char)
  pending_events : List SseEventM
  deriving DecidableEq, Repr

/-- SseStream::new. -/
def initSseState : SseStateM :=
  { buffer := [], current_event_type := none, current_data := [], pending_events := [] }

/-- line.find(':'): some (before, after) when a colon occurs. -/
def splitFieldValue : List Char → Option (List Char × List Char)
  | [] => none
  | c :: rest =>
      if c = ':' then some ([], rest)
      else
        match splitFieldValue rest with
        | none => none
        | some (f, v) => some (c :: f, v)

/-- value.strip_prefix(' ').unwrap_or(value): drop a single leading space. -/
def stripLeadSpace : List Char → List Char
  | ' ' :: rest => rest
  | v => v

/-- SseStream::process_line (streaming.rs lines 57-92). -/
def processLineM (st : SseStateM) (line : List Char) : SseStateM :=
  if line = [] then
    if st.current_data = [] then st
    else
      { st with
        current_event_type := none,
        current_data := [],
        pending_events := st.pending_events ++
          [{ event_type := st.current_event_type,
             data := List.intercalate ['\n'] st.current_data }] }
  else if line.head? = some ':' then st
  else
    let fv : List Char × List Char :=
      match splitFieldValue line with
      | some (f, v) => (f, stripLeadSpace v)
      | none => (line, [])
    if fv.1 = "event".toList then { st with current_event_type := some fv.2 }
    else if fv.1 = "data".toList then { st with current_data := st.current_data ++ [fv.2] }
    else st

/-- Feed a sequence of already-extracted lines through process_line. -/
def runLinesM (st : SseStateM) (lines : List (List Char)) : SseStateM :=
  lines.foldl processLineM st

/-- Continuation byte test 0x80..=0xBF. -/
def isCont (b : Nat) : Bool := 128 ≤ b && b ≤ 191

/-- Lower bound of the first continuation byte for a 3- or 4-byte lead. -/
def cont1Lo (b : Nat) : Nat := if b = 0xE0 then 0xA0 else if b = 0xF0 then 0x90 else 0x80

/-- Upper bound of the first continuation byte for a 3- or 4-byte lead. -/
def cont1Hi (b : Nat) : Nat := if b = 0xED then 0x9F else if b = 0xF4 then 0x8F else 0xBF

/-- First-continuation test, lead-dependent per the UTF-8 table. -/
def isCont1 (b c : Nat) : Bool := cont1Lo b ≤ c && c ≤ cont1Hi b

/-- U+FFFD replacement character. -/
def replChar : Char := Char.ofNat 0xFFFD

/-- String::from_utf8_lossy, fuelled (fuel is the input length at the top
call; at least one byte is consumed per step).  Invalid maximal subparts are
replaced by one U+FFFD each, matching the std substitution-of-maximal-subparts
rule; an incomplete sequence at the end of the input becomes one U+FFFD. -/
def utf8LossyF : Nat → List Nat → List Char
  | 0, _ => []
  | _ + 1, [] => []
  | fuel + 1, b :: rest =>
    if b < 0x80 then Char.ofNat b :: utf8LossyF fuel rest
    else if 0xC2 ≤ b && b ≤ 0xDF then
      match rest with
      | c :: rest2 =>
          if isCont c then
            Char.ofNat ((b - 0xC0) * 64 + (c - 0x80)) :: utf8LossyF fuel rest2
          else replChar :: utf8LossyF fuel rest
      | [] => replChar :: utf8LossyF fuel []
    else if 0xE0 ≤ b && b ≤ 0xEF then
      match rest with
      | c1 :: rest2 =>
          if isCont1 b c1 then
            match rest2 with
            | c2 :: rest3 =>
                if isCont c2 then
                  Char.ofNat ((b - 0xE0) * 4096 + (c1 - 0x80) * 64 + (c2 - 0x80)) ::
                    utf8LossyF fuel rest3
                else replChar :: utf8LossyF fuel rest2
            | [] => replChar :: utf8LossyF fuel []
          else replChar :: utf8LossyF fuel rest
      | [] => replChar :: utf8LossyF fuel []
    else if 0xF0 ≤ b && b ≤ 0xF4 then
      match rest with
      | c1 :: rest2 =>
          if isCont1 b c1 then
            match rest2 with
            | c2 :: rest3 =>
                if isCont c2 then
                  match rest3 with
                  | c3 :: rest4 =>
                      if isCont c3 then
                        Char.ofNat ((b - 0xF0) * 262144 + (c1 - 0x80) * 4096 +
                          (c2 - 0x80) * 64 + (c3 - 0x80)) :: utf8LossyF fuel rest4
                      else replChar :: utf8LossyF fuel rest3
                  | [] => replChar :: utf8LossyF fuel []
                else replChar :: utf8LossyF fuel rest2
            | [] => replChar :: utf8LossyF fuel []
          else replChar :: utf8LossyF fuel rest
      | [] => replChar :: utf8LossyF fuel []
    else replChar :: utf8LossyF fuel rest

/-- String::from_utf8_lossy over a byte list. -/
def utf8Lossy (bytes : List Nat) : List Char := utf8LossyF bytes.length bytes

/-- buffer.find('\n'): the first line and the remainder after the newline. -/
def splitFirstNl : List Char → Option (List Char × List Char)
  | [] => none
  | c :: rest =>
      if c = '\n' then some ([], rest)
      else
        match splitFirstNl rest with
        | none => none
        | some (l, r) => some (c :: l, r)

/-- line.trim_end_matches('\r'): drop every trailing carriage return. -/
def trimEndCr (l : List Char) : List Char := (l.reverse.dropWhile (· = '\r')).reverse

/-- The while-let line-extraction loop of SseStream::process_bytes, fuelled
(one newline is consumed per iteration, so the buffer length is enough
fuel). -/
def extractLinesF : Nat → SseStateM → SseStateM
  | 0, st => st
  | fuel + 1, st =>
      match splitFirstNl st.buffer with
      | none => st
      | some (line, rest) =>
          extractLinesF fuel (processLineM { st with buffer := rest } (trimEndCr line))

/-- SseStream::process_bytes (streaming.rs lines 95-107): lossy-decode the
chunk, append to the buffer, extract complete lines. -/
def processBytesM (st : SseStateM) (bytes : List Nat) : SseStateM :=
  let st1 : SseStateM := { st with buffer := st.buffer ++ utf8Lossy bytes }
  extractLinesF st1.buffer.length st1

/-- Feed a whole chunked byte stream. -/
def runChunksM (st : SseStateM) (chunks : List (List Nat)) : SseStateM :=
  chunks.foldl processBytesM st

/-- End-of-stream flush (streaming.rs poll_next, Ready None arm): one final
event if data lines remain. -/
def finalFlush (st : SseStateM) : List SseEventM :=
  if st.current_data = [] then st.pending_events
  else st.pending_events ++
    [{ event_type := st.current_event_type,
       data := List.intercalate ['\n'] st.current_data }]

/-- The full event sequence the parser produces for a chunked byte stream. -/
def sseEventsOfChunks (chunks : List (List Nat)) : List SseEventM :=
  finalFlush (runChunksM initSseState chunks)

/-- The bytes of "data: \xC3\xA9\n\n" (an SSE block whose data is the
two-byte UTF-8 character U+00E9) as a single chunk. -/
def c1_chunks_whole : List (List Nat) := [[100, 97, 116, 97, 58, 32, 195, 169, 10, 10]]

/-- The same bytes split into two chunks in the middle of the two-byte
character. -/
def c1_chunks_split : List (List Nat) := [[100, 97, 116, 97, 58, 32, 195], [169, 10, 10]]

/-! ## src/agent/types.rs — the domain model -/

/-- Role (types.rs). -/
inductive Role where
  | user
  | assistant
  deriving DecidableEq, Repr

/-- ImageSource (types.rs, used by anthropic.rs and context.rs). -/
structure ImageSource where
  source_type : String
  media_type : String
  data : String
  deriving DecidableEq, Repr

/-- ContentBlock (types.rs). -/
inductive ContentBlock where
  | text (text : String)
  | toolUse (id : String) (name : String) (input : Json)
  | toolResult (tool_use_id : String) (content : String) (is_error : Bool)
  | image (source : ImageSource)
  deriving Repr

/-- Message (types.rs). -/
structure MessageM where
  role : Role
  content : List ContentBlock
  deriving Repr

/-- Message::user. -/
def MessageM.user (text : String) : MessageM :=
  { role := .user, content := [.text text] }

/-- StopReason (types.rs). -/
inductive StopReason where
  | endTurn
  | toolUse
  | maxTokens
  deriving DecidableEq, Repr

/-- AgentEvent (types.rs).  UsageUpdate carries the four token counters of
the Anthropic adapter; the Ollama and OpenAI adapters construct it with the
two cache counters zero. -/
inductive AgentEvent where
  | textDelta (s : String)
  | thinking (s : String)
  | toolUse (id : String) (name : String) (input : Json)
  | messageEnd (stop_reason : StopReason)
  | usageUpdate (input_tokens output_tokens
      cache_creation_input_tokens cache_read_input_tokens : Nat)
  deriving Repr

/-- ToolDefinition (types.rs). -/
structure ToolDefinition where
  name : String
  description : String
  input_schema : Json
  deriving Repr

/-- ChatRequest (types.rs). -/
structure ChatRequestM where
  messages : List MessageM
  system_prompt : String
  tools : List ToolDefinition
  model : String
  max_tokens : Nat
  temperature : Option ℚ
  thinking_budget : Option Nat
  deriving Repr

/-! ## serde_json Display (Value::to_string), needed by the transcript
renderer.  Rational number formatting abstracts the f64 Display of serde. -/

/-- Lowercase hexadecimal digit. -/
def hexDigit (n : Nat) : Char :=
  if n < 10 then Char.ofNat (48 + n) else Char.ofNat (87 + n)

/-- JSON string escaping as serde_json performs it. -/
def escapeChar (c : Char) : String :=
  if c = '"' then "\\\""
  else if c = '\\' then "\\\\"
  else if c = '\n' then "\\n"
  else if c = '\r' then "\\r"
  else if c = '\t' then "\\t"
  else if c = Char.ofNat 8 then "\\b"
  else if c = Char.ofNat 12 then "\\f"
  else if c.toNat < 32 then
    "\\u00" ++ String.singleton (hexDigit (c.toNat / 16)) ++
      String.singleton (hexDigit (c.toNat % 16))
  else String.singleton c

/-- JSON string escaping over a whole string. -/
def jsonEscape (s : String) : String := String.join (s.toList.map escapeChar)

/-- Number rendering (integers exactly; non-integral rationals are an
abstraction of f64 Display). -/
def ratToStr (q : ℚ) : String :=
  if q.den = 1 then
    (if q.num < 0 then "-" ++ toString q.num.natAbs else toString q.num.natAbs)
  else toString q.num ++ "/" ++ toString q.den

mutual

/-- Compact serde_json Display for a value. -/
def jsonToStr : Json → String
  | .null => "null"
  | .bool b => if b then "true" else "false"
  | .num q => ratToStr q
  | .str s => "\"" ++ jsonEscape s ++ "\""
  | .arr xs => "[" ++ jsonArrToStr xs ++ "]"
  | .obj fs => "\x7b" ++ jsonObjToStr fs ++ "\x7d"

/-- Comma-joined rendering of array elements. -/
def jsonArrToStr : List Json → String
  | [] => ""
  | [x] => jsonToStr x
  | x :: y :: rest => jsonToStr x ++ "," ++ jsonArrToStr (y :: rest)

/-- Comma-joined rendering of object fields. -/
def jsonObjToStr : List (String × Json) → String
  | [] => ""
  | [(k, v)] => "\"" ++ jsonEscape k ++ "\":" ++ jsonToStr v
  | (k, v) :: p :: rest =>
      "\"" ++ jsonEscape k ++ "\":" ++ jsonToStr v ++ "," ++ jsonObjToStr (p :: rest)

end

/-! ## src/agent/context.rs — compaction

The LLM provider collaborator is a parameter: for a request it either fails
at stream acquisition or yields the finite sequence of stream items. -/

/-- The result of provider.stream_chat plus the items the stream yields. -/
abbrev Provider := ChatRequestM → Except String (List (Except String AgentEvent))

/-- context.rs KEEP_RECENT_MESSAGES. -/
def KEEP_RECENT_MESSAGES : Nat := 6

/-- Role label used by the transcript renderer. -/
def roleLabel : Role → String
  | .user => "User"
  | .assistant => "Assistant"

/-- content.chars().take(n).collect(). -/
def takeChars (n : Nat) (s : String) : String := String.mk (s.toList.take n)

/-- One line of render_messages_for_summary (context.rs lines 143-163). -/
def renderBlock (role_label : String) : ContentBlock → String
  | .text t => role_label ++ ": " ++ t ++ "\n"
  | .toolUse _ name input =>
      role_label ++ ": [called tool \x27" ++ name ++ "\x27 with " ++
        jsonToStr input ++ "]\n"
  | .toolResult _ content _ =>
      role_label ++ ": [tool result: " ++ takeChars 500 content ++ "]\n"
  | .image _ => role_label ++ ": [image]\n"

/-- context.rs render_messages_for_summary. -/
def render_messages_for_summary (messages : List MessageM) : String :=
  String.join (messages.map fun msg =>
    String.join (msg.content.map (renderBlock (roleLabel msg.role))))

/-- The summarization user prompt (context.rs lines 175-181). -/
def summaryUserPrompt (conversation_text : String) : String :=
  "Summarize the following conversation excerpt concisely. " ++
  "Preserve key facts, decisions, file paths, code snippets, and tool results " ++
  "that would be needed to continue the conversation. " ++
  "Be brief but complete.\n\n---\n" ++ conversation_text ++ "\n---"

/-- The ChatRequest summarize_via_llm sends (context.rs lines 183-191). -/
def buildSummaryRequest (conversation_text model : String) : ChatRequestM :=
  { messages := [MessageM.user (summaryUserPrompt conversation_text)],
    system_prompt := "You are a conversation summarizer. Produce a concise summary.",
    tools := [],
    model := model,
    max_tokens := 1024,
    temperature := some 0,
    thinking_budget := none }

/-- The while-let consumption loop of summarize_via_llm: accumulate text
deltas until MessageEnd or the end of the stream; a stream error is
returned. -/
def collectSummary : List (Except String AgentEvent) → String → Except String String
  | [], acc => .ok acc
  | .error e :: _, _ => .error e
  | .ok (.textDelta d) :: rest, acc => collectSummary rest (acc ++ d)
  | .ok (.messageEnd _) :: _, acc => .ok acc
  | .ok _ :: rest, acc => collectSummary rest acc

/-- context.rs summarize_via_llm: an empty accumulated summary is an
error. -/
def summarize_via_llm (provider : Provider)
    (conversation_text model _system_prompt : String) : Except String String :=
  match provider (buildSummaryRequest conversation_text model) with
  | .error e => .error e
  | .ok events =>
      match collectSummary events "" with
      | .error e => .error e
      | .ok summary =>
          if summary = "" then .error "LLM returned empty summary" else .ok summary

/-- The summary-as-user-message (context.rs lines 109-117). -/
def summaryMessage (summary : String) : MessageM :=
  { role := .user,
    content := [.text
      ("[Conversation summary -- earlier messages were compacted to save context]\n\n"
        ++ summary)] }

/-- context.rs compact_messages (lines 83-132). -/
def compact_messages (provider : Provider) (messages : List MessageM)
    (model system_prompt : String) : Except String (List MessageM) :=
  if messages.length ≤ KEEP_RECENT_MESSAGES + 1 then .ok messages
  else
    match messages with
    | [] => .ok []
    | first_msg :: _ =>
        let split_point := messages.length - KEEP_RECENT_MESSAGES
        let middle := (messages.drop 1).take (split_point - 1)
        let recent := messages.drop split_point
        if middle.isEmpty then .ok messages
        else
          let middle_text := render_messages_for_summary middle
          match summarize_via_llm provider middle_text model system_prompt with
          | .ok summary => .ok (first_msg :: summaryMessage summary :: recent)
          | .error _ => .ok (first_msg :: recent)

/-- An eight-message history used by concrete witnesses. -/
def eightMessages : List MessageM :=
  [MessageM.user "0", MessageM.user "1", MessageM.user "2", MessageM.user "3",
   MessageM.user "4", MessageM.user "5", MessageM.user "6", MessageM.user "7"]

/-- A provider whose stream yields the summary "S" then MessageEnd. -/
def okSummaryProvider : Provider :=
  fun _ => .ok [.ok (.textDelta "S"), .ok (.messageEnd .endTurn)]

/-- A provider that always fails at stream acquisition. -/
def failingProvider : Provider := fun _ => .error "boom"

/-! ## src/llm/ollama.rs — OllamaNdjsonStream

The translator is embedded at the level of already-extracted NDJSON lines
(process_buffer splits the decoded buffer at newlines, trims each line, and
skips empty lines; the while loop breaks once finished).  serde_json
deserialization of a line into OllamaChatChunk is a parameter.  The uuid
crate's Uuid::new_v4 (used only to mint unique ToolUse ids) is modelled by a
fresh-id counter carried in the state. -/

/-- ollama.rs OllamaToolCallFunction. -/
structure OllamaToolCallFunction where
  name : String
  arguments : Json
  deriving Repr

/-- ollama.rs OllamaToolCall. -/
structure OllamaToolCall where
  function : OllamaToolCallFunction
  deriving Repr

/-- ollama.rs OllamaMessage. -/
structure OllamaMessage where
  content : String
  tool_calls : Option (List OllamaToolCall)
  deriving Repr

/-- ollama.rs OllamaChatChunk. -/
structure OllamaChatChunk where
  message : OllamaMessage
  done : Bool
  prompt_eval_count : Nat
  eval_count : Nat
  deriving Repr

/-- The mutable fields of OllamaNdjsonStream (lines 262-269), plus the
fresh-id counter modelling Uuid::new_v4. -/
structure OllamaState where
  accumulated_tool_calls : List OllamaToolCall
  pending : List (Except String AgentEvent)
  finished : Bool
  next_id : Nat
  deriving Repr

/-- OllamaNdjsonStream::new. -/
def ollamaInit : OllamaState :=
  { accumulated_tool_calls := [], pending := [], finished := false, next_id := 0 }

/-- The id format "ollama_call_{uuid}": the uuid is modelled by a counter. -/
def ollamaFreshId (n : Nat) : String := "ollama_call_" ++ toString n

/-- OllamaNdjsonStream::emit_final_events (ollama.rs lines 331-357). -/
def emit_final_events (st : OllamaState) (input_tokens output_tokens : Nat) :
    OllamaState :=
  let has_tool_calls := !st.accumulated_tool_calls.isEmpty
  let pn : List (Except String AgentEvent) × Nat :=
    st.accumulated_tool_calls.foldl
      (fun acc tc =>
        (acc.1 ++ [.ok (.toolUse (ollamaFreshId acc.2)
            tc.function.name tc.function.arguments)],
         acc.2 + 1))
      (st.pending, st.next_id)
  let pending2 :=
    if input_tokens > 0 || output_tokens > 0 then
      pn.1 ++ [.ok (.usageUpdate input_tokens output_tokens 0 0)]
    else pn.1
  let stop_reason := if has_tool_calls then StopReason.toolUse else StopReason.endTurn
  { accumulated_tool_calls := [],
    pending := pending2 ++ [.ok (.messageEnd stop_reason)],
    finished := st.finished,
    next_id := pn.2 }

/-- OllamaNdjsonStream::process_line (ollama.rs lines 301-328). -/
def ollama_process_line (parseChunk : String → Option OllamaChatChunk)
    (st : OllamaState) (line : String) : OllamaState :=
  match parseChunk line with
  | none => st
  | some chunk =>
      let st1 : OllamaState :=
        if chunk.message.content = "" then st
        else { st with pending := st.pending ++ [.ok (.textDelta chunk.message.content)] }
      let st2 : OllamaState :=
        match chunk.message.tool_calls with
        | some tcs =>
            { st1 with accumulated_tool_calls := st1.accumulated_tool_calls ++ tcs }
        | none => st1
      if chunk.done then
        { emit_final_events st2 chunk.prompt_eval_count chunk.eval_count with
            finished := true }
      else st2

/-- The process_buffer line loop: empty lines are skipped, and processing
stops once finished. -/
def runOllamaLines (parseChunk : String → Option OllamaChatChunk)
    (st : OllamaState) : List String → OllamaState
  | [] => st
  | l :: rest =>
      if st.finished then st
      else runOllamaLines parseChunk
        (if l = "" then st else ollama_process_line parseChunk st l) rest

/-- The TextDelta events a single line contributes. -/
def ollamaLineTextEvents (parseChunk : String → Option OllamaChatChunk)
    (l : String) : List (Except String AgentEvent) :=
  if l = "" then []
  else
    match parseChunk l with
    | none => []
    | some c =>
        if c.message.content = "" then [] else [.ok (.textDelta c.message.content)]

/-- The tool calls a single line contributes to the accumulator. -/
def ollamaLineCalls (parseChunk : String → Option OllamaChatChunk)
    (l : String) : List OllamaToolCall :=
  if l = "" then []
  else
    match parseChunk l with
    | none => []
    | some c => c.message.tool_calls.getD []

/-- The ToolUse events emitted for a list of accumulated calls, ids minted
from a starting counter. -/
def ollamaToolUseEvents (start : Nat) (calls : List OllamaToolCall) :
    List (Except String AgentEvent) :=
  (List.enumFrom start calls).map
    (fun p => .ok (.toolUse (ollamaFreshId p.1) p.2.function.name p.2.function.arguments))

/-- A done:false chunk carrying text and one tool call (concrete witness). -/
def c2PreChunk : OllamaChatChunk :=
  { message := { content := "hi", tool_calls := some [⟨⟨"bash", Json.str "x"⟩⟩] },
    done := false, prompt_eval_count := 0, eval_count := 0 }

/-- A done:true chunk carrying usage counters (concrete witness). -/
def c2FinChunk : OllamaChatChunk :=
  { message := { content := "", tool_calls := none },
    done := true, prompt_eval_count := 3, eval_count := 5 }

/-- A concrete line parser: "a" is the done:false chunk, "b" the done:true
chunk, anything else malformed. -/
def c2Parse : String → Option OllamaChatChunk := fun l =>
  if l = "a" then some c2PreChunk
  else if l = "b" then some c2FinChunk
  else none

/-! ## src/llm/anthropic.rs — AnthropicEventStream

The SSE events arriving from the frame parser carry their data as raw JSON
text; serde_json::from_str::<Value> is a parameter (none models a parse
error). -/

/-- streaming.rs SseEvent with String payloads, as the translators consume
it. -/
structure SseEvent where
  event_type : Option String
  data : String
  deriving DecidableEq, Repr

/-- The mutable fields of AnthropicEventStream (anthropic.rs lines 302-311). -/
structure AnthropicState where
  current_tool_id : Option String
  current_tool_name : Option String
  current_tool_input_json : String
  in_thinking_block : Bool
  pending : List (Except String AgentEvent)
  done : Bool
  deriving Repr

/-- AnthropicEventStream::new. -/
def anthropicInit : AnthropicState :=
  { current_tool_id := none, current_tool_name := none,
    current_tool_input_json := "", in_thinking_block := false,
    pending := [], done := false }

/-- anthropic.rs parse_stop_reason. -/
def parse_stop_reason : String → StopReason
  | "end_turn" => .endTurn
  | "tool_use" => .toolUse
  | "max_tokens" => .maxTokens
  | _ => .endTurn

/-- AnthropicEventStream::process_sse_event (anthropic.rs lines 326-444).
In the content_block_stop arm the source calls Option::take on both the tool
id and name before matching, so a failed match still clears both. -/
def anthropic_process_sse_event (parse : String → Option Json)
    (st : AnthropicState) (ev : SseEvent) : AnthropicState :=
  let event_type := ev.event_type.getD ""
  if event_type = "content_block_start" then
    match parse ev.data with
    | none => st
    | some data =>
        let block := data.getField "content_block"
        match (block.getField "type").asStr with
        | some "tool_use" =>
            { st with current_tool_id := (block.getField "id").asStr,
                      current_tool_name := (block.getField "name").asStr,
                      current_tool_input_json := "",
                      in_thinking_block := false }
        | some "thinking" => { st with in_thinking_block := true }
        | _ => { st with in_thinking_block := false }
  else if event_type = "content_block_delta" then
    match parse ev.data with
    | none => st
    | some data =>
        let delta := data.getField "delta"
        match (delta.getField "type").asStr with
        | some "text_delta" =>
            match (delta.getField "text").asStr with
            | some t => { st with pending := st.pending ++ [.ok (.textDelta t)] }
            | none => st
        | some "thinking_delta" =>
            match (delta.getField "thinking").asStr with
            | some t => { st with pending := st.pending ++ [.ok (.thinking t)] }
            | none => st
        | some "input_json_delta" =>
            match (delta.getField "partial_json").asStr with
            | some j =>
                { st with current_tool_input_json := st.current_tool_input_json ++ j }
            | none => st
        | _ => st
  else if event_type = "content_block_stop" then
    if st.in_thinking_block then { st with in_thinking_block := false }
    else
      match st.current_tool_id, st.current_tool_name with
      | some id, some name =>
          let input := (parse st.current_tool_input_json).getD (.obj [])
          { st with current_tool_id := none, current_tool_name := none,
                    current_tool_input_json := "",
                    pending := st.pending ++ [.ok (.toolUse id name input)] }
      | _, _ => { st with current_tool_id := none, current_tool_name := none }
  else if event_type = "message_start" then
    match parse ev.data with
    | none => st
    | some data =>
        let usage := (data.getField "message").getField "usage"
        let input_tokens := (usage.getField "input_tokens").asNat.getD 0
        let cache_creation :=
          (usage.getField "cache_creation_input_tokens").asNat.getD 0
        let cache_read := (usage.getField "cache_read_input_tokens").asNat.getD 0
        if input_tokens > 0 || cache_creation > 0 || cache_read > 0 then
          { st with pending := st.pending ++
              [.ok (.usageUpdate input_tokens 0 cache_creation cache_read)] }
        else st
  else if event_type = "message_delta" then
    match parse ev.data with
    | none => st
    | some data =>
        let st1 :=
          match ((data.getField "delta").getField "stop_reason").asStr with
          | some reason =>
              { st with pending := st.pending ++
                  [.ok (.messageEnd (parse_stop_reason reason))] }
          | none => st
        let output_tokens := ((data.getField "usage").getField "output_tokens").asNat.getD 0
        if output_tokens > 0 then
          { st1 with pending := st1.pending ++ [.ok (.usageUpdate 0 output_tokens 0 0)] }
        else st1
  else if event_type = "message_stop" then
    { st with pending := st.pending ++ [.ok (.messageEnd .endTurn)] }
  else if event_type = "error" then
    let message :=
      match parse ev.data with
      | some d => (((d.getField "error").getField "message").asStr).getD "unknown error"
      | none => "unknown error"
    { st with pending := st.pending ++ [.error ("Anthropic stream error: " ++ message)] }
  else st

/-- Feed a sequence of SSE events through the translator. -/
def runAnthropic (parse : String → Option Json) (st : AnthropicState)
    (evs : List SseEvent) : AnthropicState :=
  evs.foldl (anthropic_process_sse_event parse) st

/-- The poll_next drain semantics: pending items are delivered in order and
the first error terminates the stream (done is set, later items dropped). -/
def truncAtError : List (Except String AgentEvent) → List (Except String AgentEvent)
  | [] => []
  | .ok e :: rest => .ok e :: truncAtError rest
  | .error e :: _ => [.error e]

/-- The normalized event sequence the Anthropic adapter emits for an SSE
event sequence. -/
def anthropicOutput (parse : String → Option Json) (evs : List SseEvent) :
    List (Except String AgentEvent) :=
  truncAtError (runAnthropic parse anthropicInit evs).pending

/-- Count of MessageEnd events in an emitted sequence. -/
def countMessageEnds (l : List (Except String AgentEvent)) : Nat :=
  l.countP fun x =>
    match x with
    | .ok (.messageEnd _) => true
    | _ => false

/-- The number of MessageEnd events one SSE event makes the translator push:
one for a message_delta whose data carries a string stop_reason, one for a
message_stop, zero otherwise. -/
def anthMeCount (parse : String → Option Json) (ev : SseEvent) : Nat :=
  if ev.event_type = some "message_delta" then
    match parse ev.data with
    | some d =>
        if (((d.getField "delta").getField "stop_reason").asStr).isSome then 1 else 0
    | none => 0
  else if ev.event_type = some "message_stop" then 1
  else 0

/-- Success-only test for emitted items. -/
def isOkItem : Except String AgentEvent → Bool
  | .ok _ => true
  | .error _ => false

/-- The provider-native data payload of a content_block_start(tool_use). -/
def mkToolUseStart (id name : String) : Json :=
  .obj [("content_block",
    .obj [("type", .str "tool_use"), ("id", .str id), ("name", .str name)])]

/-- The provider-native data payload of a content_block_delta
(input_json_delta). -/
def mkInputJsonDelta (frag : String) : Json :=
  .obj [("delta",
    .obj [("type", .str "input_json_delta"), ("partial_json", .str frag)])]

/-- Concatenation of the argument fragments in arrival order. -/
def concatStrings : List String → String
  | [] => ""
  | s :: rest => s ++ concatStrings rest

/-- A concrete parser for the C3 counterexample: "D" is a message_delta
payload carrying stop_reason end_turn. -/
def c3Parse : String → Option Json := fun s =>
  if s = "D" then some (.obj [("delta", .obj [("stop_reason", .str "end_turn")])])
  else none

/-- The C3 counterexample input: a message_delta with a stop_reason followed
by a message_stop, as every well-formed Anthropic stream contains. -/
def c3Input : List SseEvent :=
  [{ event_type := some "message_delta", data := "D" },
   { event_type := some "message_stop", data := "" }]

/-! ## src/llm/anthropic.rs — build_request_body -/

/-- The prompt-cache breakpoint marker. -/
def cacheEphemeral : Json := .obj [("type", .str "ephemeral")]

/-- In-place modification of the element at an index (no-op out of range). -/
def listModify {α : Type _} (f : α → α) : Nat → List α → List α
  | _, [] => []
  | 0, a :: as => f a :: as
  | n + 1, a :: as => a :: listModify f n as

/-- anthropic.rs convert_image_source. -/
def convert_image_source (source : ImageSource) : Json :=
  .obj [("type", .str "image"),
        ("source", .obj [("type", .str source.source_type),
                         ("media_type", .str source.media_type),
                         ("data", .str source.data)])]

/-- anthropic.rs convert_user_content. -/
def convert_user_content (blocks : List ContentBlock) : List Json :=
  blocks.map fun block =>
    match block with
    | .text t => .obj [("type", .str "text"), ("text", .str t)]
    | .toolResult tool_use_id content is_error =>
        let v : Json := .obj [("type", .str "tool_result"),
                              ("tool_use_id", .str tool_use_id),
                              ("content", .str content)]
        if is_error then v.setField "is_error" (.bool true) else v
    | .toolUse id name input =>
        .obj [("type", .str "tool_use"), ("id", .str id),
              ("name", .str name), ("input", input)]
    | .image source => convert_image_source source

/-- anthropic.rs convert_assistant_content. -/
def convert_assistant_content (blocks : List ContentBlock) : List Json :=
  blocks.map fun block =>
    match block with
    | .text t => .obj [("type", .str "text"), ("text", .str t)]
    | .toolUse id name input =>
        .obj [("type", .str "tool_use"), ("id", .str id),
              ("name", .str name), ("input", input)]
    | .toolResult tool_use_id content _ =>
        .obj [("type", .str "tool_result"),
              ("tool_use_id", .str tool_use_id), ("content", .str content)]
    | .image source => convert_image_source source

/-- anthropic.rs convert_messages. -/
def convert_messages (messages : List MessageM) : List Json :=
  messages.map fun msg =>
    match msg.role with
    | .user =>
        .obj [("role", .str "user"),
              ("content", .arr (convert_user_content msg.content))]
    | .assistant =>
        .obj [("role", .str "assistant"),
              ("content", .arr (convert_assistant_content msg.content))]

/-- anthropic.rs convert_tools. -/
def anthropic_convert_tools (tools : List ToolDefinition) : List Json :=
  tools.map fun t =>
    .obj [("name", .str t.name), ("description", .str t.description),
          ("input_schema", t.input_schema)]

/-- anthropic.rs find_last_user_message_index. -/
def find_last_user_message_index (messages : List Json) : Option Nat :=
  ((messages.enum.reverse).find?
    (fun p => (p.2.getField "role").asStr == some "user")).map Prod.fst

/-- The cache_control insertion on the last content block of a message
(anthropic.rs lines 67-77). -/
def addCacheToLastBlock (msg : Json) : Json :=
  match msg.getField "content" with
  | .arr xs =>
      msg.setField "content"
        (.arr (listModify (fun b => b.setField "cache_control" cacheEphemeral)
          (xs.length - 1) xs))
  | _ => msg

/-- anthropic.rs build_request_body (lines 43-110). -/
def build_request_body (request : ChatRequestM) : Json :=
  let messages := convert_messages request.messages
  let tools := anthropic_convert_tools request.tools
  let thinking_enabled : Bool :=
    match request.thinking_budget with
    | some budget => decide (budget > 0)
    | none => false
  let max_tokens : Nat :=
    match request.thinking_budget with
    | some budget =>
        if budget > 0 then budget + request.max_tokens else request.max_tokens
    | none => request.max_tokens
  let tools :=
    if tools.isEmpty then tools
    else listModify (fun t => t.setField "cache_control" cacheEphemeral)
      (tools.length - 1) tools
  let messages :=
    match find_last_user_message_index messages with
    | some idx => listModify addCacheToLastBlock idx messages
    | none => messages
  let body : Json := .obj
    [("model", .str request.model),
     ("messages", .arr messages),
     ("max_tokens", .num (max_tokens : ℚ)),
     ("stream", .bool true)]
  let body :=
    if thinking_enabled then
      body.setField "thinking"
        (.obj [("type", .str "enabled"),
               ("budget_tokens", .num ((request.thinking_budget.getD 0 : Nat) : ℚ))])
    else
      match request.temperature with
      | some temp => body.setField "temperature" (.num temp)
      | none => body
  let body :=
    if request.system_prompt = "" then body
    else
      body.setField "system"
        (.arr [.obj [("type", .str "text"),
                     ("text", .str request.system_prompt),
                     ("cache_control", cacheEphemeral)]])
  if (anthropic_convert_tools request.tools).isEmpty then body
  else body.setField "tools" (.arr tools)

/-! ## src/llm/openai.rs — OpenAiEventStream

The index-keyed tool-call accumulator HashMap<u32, (String, String, String)>
is embedded as an insertion-ordered association list with unique keys; the
flush sorts the entries by key, as the source sorts the collected key set.
serde_json::from_str is a parameter returning the error text on failure, as
the parse-failure payload embeds it. -/

/-- One accumulator entry: (id, name, accumulated argument JSON). -/
structure ToolAcc where
  id : String
  name : String
  args : String
  deriving DecidableEq, Repr

/-- The mutable fields of OpenAiEventStream (openai.rs lines 232-237). -/
structure OpenAiState where
  tool_calls : List (Nat × ToolAcc)
  pending : List (Except String AgentEvent)
  done : Bool
  deriving Repr

/-- OpenAiEventStream::new. -/
def openAiInit : OpenAiState := { tool_calls := [], pending := [], done := false }

/-- openai.rs parse_finish_reason. -/
def parse_finish_reason : String → StopReason
  | "stop" => .endTurn
  | "tool_calls" => .toolUse
  | "length" => .maxTokens
  | _ => .endTurn

/-- HashMap insert-or-update keyed by the stream index. -/
def upsertA (m : List (Nat × ToolAcc)) (k : Nat) (v : ToolAcc) : List (Nat × ToolAcc) :=
  match m with
  | [] => [(k, v)]
  | (k0, v0) :: rest => if k0 = k then (k, v) :: rest else (k0, v0) :: upsertA rest k v

/-- The entry().or_insert() merge of one delta.tool_calls element (openai.rs
lines 276-292): id and name are overwritten when present, arguments are
appended. -/
def mergeOneToolCall (m : List (Nat × ToolAcc)) (tc : Json) : List (Nat × ToolAcc) :=
  let index := ((tc.getField "index").asNat).getD 0
  let e0 := (m.lookup index).getD ⟨"", "", ""⟩
  let e1 := match (tc.getField "id").asStr with
    | some s => { e0 with id := s }
    | none => e0
  let e2 := match ((tc.getField "function").getField "name").asStr with
    | some s => { e1 with name := s }
    | none => e1
  let e3 := match ((tc.getField "function").getField "arguments").asStr with
    | some s => { e2 with args := e2.args ++ s }
    | none => e2
  upsertA m index e3

/-- The ToolUse input for one flushed call (openai.rs lines 319-333): parse
failure is non-fatal and yields a payload carrying the raw argument string
and the parse error. -/
def emitToolInput (pj : String → Except String Json) (acc : ToolAcc) : Json :=
  match pj acc.args with
  | .ok v => v
  | .error e => .obj [("_parse_error", .str e), ("_raw_args", .str acc.args)]

/-- The ascending key order in which the flush emits (indices.sort()). -/
def oaiSortCalls (m : List (Nat × ToolAcc)) : List (Nat × ToolAcc) :=
  List.insertionSort (fun a b => a.1 ≤ b.1) m

/-- The flush at finish_reason mapping to ToolUse (openai.rs lines 314-338):
emit every accumulated call in ascending index order, each removed from the
map. -/
def flushToolCalls (pj : String → Except String Json) (st : OpenAiState) : OpenAiState :=
  { st with
    tool_calls := [],
    pending := st.pending ++ (oaiSortCalls st.tool_calls).map
      (fun e => .ok (.toolUse e.2.id e.2.name (emitToolInput pj e.2))) }

/-- The choices[0].delta section of process_sse_event (openai.rs lines
267-294). -/
def oaiApplyDelta (chunk : Json) (st : OpenAiState) : OpenAiState :=
  match (((chunk.getField "choices").getIdx 0).getField "delta").asObj with
  | none => st
  | some _ =>
      let delta := ((chunk.getField "choices").getIdx 0).getField "delta"
      let st1 :=
        match (delta.getField "content").asStr with
        | some t => { st with pending := st.pending ++ [.ok (.textDelta t)] }
        | none => st
      match (delta.getField "tool_calls").asArr with
      | some tcs => { st1 with tool_calls := tcs.foldl mergeOneToolCall st1.tool_calls }
      | none => st1

/-- The usage section of process_sse_event (openai.rs lines 298-307). -/
def oaiApplyUsage (chunk : Json) (st : OpenAiState) : OpenAiState :=
  match (chunk.getField "usage").asObj with
  | some _ =>
      let u := chunk.getField "usage"
      let input := (u.getField "prompt_tokens").asNat.getD 0
      let output := (u.getField "completion_tokens").asNat.getD 0
      if input > 0 || output > 0 then
        { st with pending := st.pending ++ [.ok (.usageUpdate input output 0 0)] }
      else st
  | none => st

/-- The finish_reason section of process_sse_event (openai.rs lines
310-342). -/
def oaiApplyFinish (pj : String → Except String Json) (chunk : Json)
    (st : OpenAiState) : OpenAiState :=
  match (((chunk.getField "choices").getIdx 0).getField "finish_reason").asStr with
  | some reason =>
      let stop_reason := parse_finish_reason reason
      let st1 := if stop_reason = StopReason.toolUse then flushToolCalls pj st else st
      { st1 with pending := st1.pending ++ [.ok (.messageEnd stop_reason)] }
  | none => st

/-- OpenAiEventStream::process_sse_event (openai.rs lines 251-343): the
"[DONE]" sentinel, then the three sections in source order. -/
def openai_process_sse_event (pj : String → Except String Json)
    (st : OpenAiState) (ev : SseEvent) : OpenAiState :=
  if rustTrim ev.data = "[DONE]" then { st with done := true }
  else
    match pj ev.data with
    | .error _ => st
    | .ok chunk => oaiApplyFinish pj chunk (oaiApplyUsage chunk (oaiApplyDelta chunk st))

/-- A concrete parser for the C4 witness: "F" is a pure finish chunk, any
other string (in particular the accumulated argument strings) fails to
parse. -/
def c4Pj : String → Except String Json := fun s =>
  if s = "F" then
    .ok (.obj [("choices", .arr [.obj [("finish_reason", .str "tool_calls")]])])
  else .error "bad json"

/-- A concrete accumulator state for the C4 witness, with indices out of
order. -/
def c4St : OpenAiState :=
  { tool_calls := [(1, ⟨"b", "t2", "y"⟩), (0, ⟨"a", "t1", "x"⟩)],
    pending := [], done := false }

end OpenClaw

namespace OpenClaw

/-! ## Theorems -/

theorem any_and_false (l : List α) (f : α → Bool) :
    (l.any fun x => f x && false) = false := by
  induction l with
  | nil => rfl
  | cons a as ih => simp [List.any_cons, ih]

/-- Claim C9 (counterexample): the command "git\rstatus" contains none of the
nine metacharacter patterns listed by the claim, and its first-token basename
"git" is on the allowlist, so the claim predicts acceptance; the code rejects
it (it also treats carriage return as a chaining character). -/
theorem c9_claim_false_on_carriage_return :
    allowlistClaimAllowed ("git\rstatus".toList) ["git".toList] = true ∧
    is_command_allowed ("git\rstatus".toList) ["git".toList] "allowlist" = false := by
  constructor <;> decide

/-- Claim C9 (amended): under security "allowlist", is_command_allowed returns
false for every command containing one of the nine listed metacharacter
patterns or a carriage return, even when the first token matches the
allowlist; for commands free of these it returns true exactly when the
basename of the first token equals an allowlist entry (ASCII
case-insensitively) or the trimmed command starts, ASCII
case-insensitively, with an allowlist prefix pattern that ends in a space. -/
theorem is_command_allowed_allowlist_characterization
    (command : List Char) (allowlist : List (List Char)) :
    is_command_allowed command allowlist "allowlist" =
      allowlistAmendedAllowed command allowlist := by
  unfold is_command_allowed allowlistAmendedAllowed
  cases h : hasChain command with
  | false =>
      simp [h]
  | true =>
      simp only [h, Bool.not_true, Bool.and_false, if_true]
      have := any_and_false allowlist
        (fun pattern =>
          let p := pattern.map asciiLower
          if endsWithSpace p then
            listStartsWith (trimChars command |>.map asciiLower) p
          else
            ((rustFileName ((trimChars command).takeWhile fun c => !isWhite c)).getD
              ((trimChars command).takeWhile fun c => !isWhite c)).map asciiLower == p)
      simp at this ⊢

/-- Witness for the amended C9 theorem at a concrete input: a prefix pattern
"git " accepts "git status". -/
theorem is_command_allowed_allowlist_witness :
    is_command_allowed ("git status".toList) ["git ".toList] "allowlist" = true :=
  (is_command_allowed_allowlist_characterization ("git status".toList)
    ["git ".toList]).trans (by decide)

/-- Claim C1 (the code at the failing input): the same valid SSE byte stream
"data: \xC3\xA9\n\n", delivered whole versus split in the middle of the
two-byte character, produces different event sequences — because
process_bytes lossy-decodes each chunk separately, the split delivery turns
the character into two U+FFFD replacement characters.  The spec requires raw
bytes to be accumulated until a line boundary so that the event sequence is
chunking-independent. -/
theorem sse_chunking_not_invariant_at_split_codepoint :
    c1_chunks_whole.flatten = c1_chunks_split.flatten ∧
    sseEventsOfChunks c1_chunks_whole =
      [{ event_type := none, data := [Char.ofNat 0xE9] }] ∧
    sseEventsOfChunks c1_chunks_split =
      [{ event_type := none, data := [replChar, replChar] }] ∧
    sseEventsOfChunks c1_chunks_whole ≠ sseEventsOfChunks c1_chunks_split := by
  refine ⟨by decide, by decide, by decide, by decide⟩

/-- Claim C10: an event boundary (blank line) reached with no accumulated
data lines leaves the parser state unchanged — in particular it emits no
event and keeps a previously seen event type — and that stored event type
attaches to the next data-bearing block: the line sequence
"event: X", "", "data: d", "" produces the single event (X, "d"). -/
theorem sse_blank_line_keeps_event_type :
    (∀ st : SseStateM, st.current_data = [] → processLineM st [] = st) ∧
    (runLinesM initSseState
        ["event: X".toList, [], "data: d".toList, []]).pending_events =
      [{ event_type := some ("X".toList), data := "d".toList }] := by
  constructor
  · intro st h
    simp [processLineM, h]
  · decide

/-- Witness for C10: the state-preservation part applied at a concrete state
holding a stored event type. -/
theorem sse_blank_line_keeps_event_type_witness :
    processLineM { buffer := [], current_event_type := some ['x'],
                   current_data := [], pending_events := [] } [] =
      { buffer := [], current_event_type := some ['x'],
        current_data := [], pending_events := [] } :=
  sse_blank_line_keeps_event_type.1 _ rfl

theorem isEmpty_false_of_length_pos {α : Type _} {l : List α} (h : 0 < l.length) :
    l.isEmpty = false := by
  cases l with
  | nil => simp at h
  | cons a as => rfl

theorem compact_middle_not_empty (first_msg : MessageM) (rest : List MessageM)
    (hl : KEEP_RECENT_MESSAGES + 1 < (first_msg :: rest).length) :
    (((first_msg :: rest).drop 1).take
      ((first_msg :: rest).length - KEEP_RECENT_MESSAGES - 1)).isEmpty = false := by
  apply isEmpty_false_of_length_pos
  simp only [List.length_take, List.length_drop, List.length_cons] at *
  omega

/-- Claim C7: compact_messages on a history of at most KEEP_RECENT_MESSAGES +
1 = 7 messages returns the input unchanged; on a longer history whose
summarization succeeds, it returns the first message (preserved verbatim),
the summary as a user message, then the KEEP_RECENT_MESSAGES most recent
messages — output length 2 + KEEP_RECENT_MESSAGES. -/
theorem compact_messages_noop_and_success
    (provider : Provider) (messages : List MessageM) (model system_prompt : String) :
    (messages.length ≤ KEEP_RECENT_MESSAGES + 1 →
      compact_messages provider messages model system_prompt = .ok messages) ∧
    (∀ first_msg rest summary,
      messages = first_msg :: rest →
      KEEP_RECENT_MESSAGES + 1 < messages.length →
      summarize_via_llm provider
        (render_messages_for_summary
          ((messages.drop 1).take (messages.length - KEEP_RECENT_MESSAGES - 1)))
        model system_prompt = .ok summary →
      compact_messages provider messages model system_prompt =
        .ok (first_msg :: summaryMessage summary ::
          messages.drop (messages.length - KEEP_RECENT_MESSAGES)) ∧
      (first_msg :: summaryMessage summary ::
        messages.drop (messages.length - KEEP_RECENT_MESSAGES)).length =
        2 + KEEP_RECENT_MESSAGES) := by
  constructor
  · intro h
    simp [compact_messages, h]
  · intro first_msg rest summary hm hl hs
    subst hm
    have hnotle : ¬ (first_msg :: rest).length ≤ KEEP_RECENT_MESSAGES + 1 := by omega
    have hmid := compact_middle_not_empty first_msg rest hl
    constructor
    · simp only [compact_messages, if_neg hnotle]
      rw [hmid]
      simp only [Bool.false_eq_true, if_false]
      rw [hs]
    · have hdl : ((first_msg :: rest).drop
          (rest.length + 1 - KEEP_RECENT_MESSAGES)).length =
          KEEP_RECENT_MESSAGES := by
        rw [List.length_drop]
        simp only [List.length_cons] at hl ⊢
        omega
      simp only [List.length_cons, hdl]
      omega

/-- Witness for C7 at a concrete eight-message history and a stubbed
summarizer that answers "S". -/
theorem compact_messages_success_witness :
    compact_messages okSummaryProvider eightMessages "m" "sys" =
      .ok (MessageM.user "0" :: summaryMessage "S" :: eightMessages.drop 2) :=
  ((compact_messages_noop_and_success okSummaryProvider eightMessages "m" "sys").2
    (MessageM.user "0")
    [MessageM.user "1", MessageM.user "2", MessageM.user "3",
     MessageM.user "4", MessageM.user "5", MessageM.user "6", MessageM.user "7"]
    "S" rfl (by decide) rfl).1

/-- Claim C8: compact_messages never returns an error; whenever the
summarization call fails (stream-acquisition error, mid-stream error, or the
empty summary that summarize_via_llm turns into an error), it falls back to
the first message followed by the recent messages, dropping the middle. -/
theorem compact_messages_never_errors_and_fallback
    (provider : Provider) (messages : List MessageM) (model system_prompt : String) :
    (∃ out, compact_messages provider messages model system_prompt = .ok out) ∧
    (∀ first_msg rest e,
      messages = first_msg :: rest →
      KEEP_RECENT_MESSAGES + 1 < messages.length →
      summarize_via_llm provider
        (render_messages_for_summary
          ((messages.drop 1).take (messages.length - KEEP_RECENT_MESSAGES - 1)))
        model system_prompt = .error e →
      compact_messages provider messages model system_prompt =
        .ok (first_msg :: messages.drop (messages.length - KEEP_RECENT_MESSAGES))) := by
  constructor
  · by_cases h : messages.length ≤ KEEP_RECENT_MESSAGES + 1
    · exact ⟨messages, by simp [compact_messages, h]⟩
    · cases messages with
      | nil => exact absurd (by decide) h
      | cons first_msg rest =>
          by_cases hmid : (((first_msg :: rest).drop 1).take
              ((first_msg :: rest).length - KEEP_RECENT_MESSAGES - 1)).isEmpty
          · exact ⟨first_msg :: rest, by
              simp only [compact_messages, if_neg h]
              rw [hmid]
              simp⟩
          · rw [Bool.not_eq_true] at hmid
            cases hsum : summarize_via_llm provider
                (render_messages_for_summary (((first_msg :: rest).drop 1).take
                  ((first_msg :: rest).length - KEEP_RECENT_MESSAGES - 1)))
                model system_prompt with
            | ok s =>
                refine ⟨first_msg :: summaryMessage s :: (first_msg :: rest).drop
                  ((first_msg :: rest).length - KEEP_RECENT_MESSAGES), ?_⟩
                simp only [compact_messages, if_neg h]
                rw [hmid]
                simp only [Bool.false_eq_true, if_false]
                rw [hsum]
            | error e =>
                refine ⟨first_msg :: (first_msg :: rest).drop
                  ((first_msg :: rest).length - KEEP_RECENT_MESSAGES), ?_⟩
                simp only [compact_messages, if_neg h]
                rw [hmid]
                simp only [Bool.false_eq_true, if_false]
                rw [hsum]
  · intro first_msg rest e hm hl hs
    subst hm
    have hnotle : ¬ (first_msg :: rest).length ≤ KEEP_RECENT_MESSAGES + 1 := by omega
    have hmid := compact_middle_not_empty first_msg rest hl
    simp only [compact_messages, if_neg hnotle]
    rw [hmid]
    simp only [Bool.false_eq_true, if_false]
    rw [hs]

theorem ollama_step_not_done (parseChunk : String → Option OllamaChatChunk)
    (l : String) (acc : List OllamaToolCall)
    (pend : List (Except String AgentEvent)) (n : Nat)
    (h : ∀ c, parseChunk l = some c → c.done = false) :
    (if l = "" then (⟨acc, pend, false, n⟩ : OllamaState)
     else ollama_process_line parseChunk ⟨acc, pend, false, n⟩ l) =
      ⟨acc ++ ollamaLineCalls parseChunk l,
       pend ++ ollamaLineTextEvents parseChunk l, false, n⟩ := by
  by_cases hl : l = ""
  · simp [hl, ollamaLineCalls, ollamaLineTextEvents]
  · cases hc : parseChunk l with
    | none =>
        simp [ollama_process_line, ollamaLineCalls, ollamaLineTextEvents, hl, hc]
    | some c =>
        have hcd := h c hc
        rcases htc : c.message.tool_calls with _ | tcs <;>
          by_cases hcc : c.message.content = "" <;>
            simp [ollama_process_line, ollamaLineCalls, ollamaLineTextEvents,
              hl, hc, htc, hcc, hcd]

theorem ollama_pre_phase (parseChunk : String → Option OllamaChatChunk)
    (pre : List String) :
    ∀ (rest : List String) (acc : List OllamaToolCall)
      (pend : List (Except String AgentEvent)) (n : Nat),
      (∀ l ∈ pre, ∀ c, parseChunk l = some c → c.done = false) →
      runOllamaLines parseChunk ⟨acc, pend, false, n⟩ (pre ++ rest) =
        runOllamaLines parseChunk
          ⟨acc ++ (pre.map (ollamaLineCalls parseChunk)).flatten,
           pend ++ (pre.map (ollamaLineTextEvents parseChunk)).flatten, false, n⟩
          rest := by
  induction pre with
  | nil => intro rest acc pend n _; simp
  | cons l ls ih =>
      intro rest acc pend n h
      have hstep := ollama_step_not_done parseChunk l acc pend n
        (fun c hc => h l (by simp) c hc)
      rw [List.cons_append]
      simp only [runOllamaLines]
      rw [hstep]
      rw [ih rest _ _ n (fun x hx c hc => h x (by simp [hx]) c hc)]
      simp [List.append_assoc]

theorem ollama_emit_foldl (calls : List OllamaToolCall) :
    ∀ (pend : List (Except String AgentEvent)) (n : Nat),
      calls.foldl
        (fun acc tc =>
          (acc.1 ++ [.ok (.toolUse (ollamaFreshId acc.2)
              tc.function.name tc.function.arguments)],
           acc.2 + 1))
        (pend, n) =
        (pend ++ ollamaToolUseEvents n calls, n + calls.length) := by
  induction calls with
  | nil => intro pend n; simp [ollamaToolUseEvents]
  | cons c cs ih =>
      intro pend n
      simp only [List.foldl_cons]
      rw [ih]
      simp [ollamaToolUseEvents, List.enumFrom]
      omega

theorem ite_not_isEmpty {α : Type _} {β : Type _} (l : List α) (x y : β) :
    (if !l.isEmpty then x else y) = (if l.isEmpty then y else x) := by
  cases l <;> rfl

theorem ollama_finished_absorbs (parseChunk : String → Option OllamaChatChunk)
    (post : List String) :
    ∀ st : OllamaState, st.finished = true → runOllamaLines parseChunk st post = st := by
  induction post with
  | nil => intro st _; rfl
  | cons l ls _ => intro st h; simp [runOllamaLines, h]

theorem ollamaToolUseEvents_append (n : Nat) (a b : List OllamaToolCall) :
    ollamaToolUseEvents n (a ++ b) =
      ollamaToolUseEvents n a ++ ollamaToolUseEvents (n + a.length) b := by
  induction a generalizing n with
  | nil => simp [ollamaToolUseEvents]
  | cons x xs ih =>
      have hx := ih (n + 1)
      simp only [ollamaToolUseEvents] at hx ⊢
      simp only [List.cons_append, List.enumFrom, List.map_cons, List.append_eq,
        List.length_cons]
      rw [hx]
      have harith : n + 1 + xs.length = n + (xs.length + 1) := by omega
      rw [harith]

theorem ollama_step_done (parseChunk : String → Option OllamaChatChunk)
    (l : String) (acc : List OllamaToolCall)
    (pend : List (Except String AgentEvent)) (n : Nat)
    (c : OllamaChatChunk) (hc : parseChunk l = some c) (hd : c.done = true) :
    ollama_process_line parseChunk ⟨acc, pend, false, n⟩ l =
      { accumulated_tool_calls := [],
        pending := pend ++
          (if c.message.content = "" then []
           else [.ok (.textDelta c.message.content)]) ++
          ollamaToolUseEvents n (acc ++ c.message.tool_calls.getD []) ++
          (if 0 < c.prompt_eval_count ∨ 0 < c.eval_count then
            [.ok (.usageUpdate c.prompt_eval_count c.eval_count 0 0)]
           else []) ++
          [.ok (.messageEnd
            (if (acc ++ c.message.tool_calls.getD []).isEmpty then
              StopReason.endTurn else StopReason.toolUse))],
        finished := true,
        next_id := n + (acc ++ c.message.tool_calls.getD []).length } := by
  obtain ⟨⟨content, tool_calls⟩, done, pec, ec⟩ := c
  simp only at hd
  subst hd
  rcases tool_calls with _ | tcs <;>
    by_cases hcc : content = "" <;>
      by_cases husage : 0 < pec ∨ 0 < ec <;>
        simp [ollama_process_line, hc, hcc, husage, emit_final_events,
          ollama_emit_foldl, ite_not_isEmpty, List.append_assoc,
          ollamaToolUseEvents_append, Nat.add_assoc,
          apply_ite OllamaState.accumulated_tool_calls,
          apply_ite OllamaState.pending, apply_ite OllamaState.next_id] <;>
        (try rw [List.append_nil]) <;>
        (try rw [if_neg hcc])

/-- Claim C2: for every Ollama NDJSON stream (lines before the first done
chunk may be empty, malformed, or done:false chunks), every accumulated tool
call — from any done:false chunk, and from the done chunk itself — is
emitted exactly once, immediately after the done:true chunk is observed and
after all earlier TextDelta events, in first-seen order; lines after the
done chunk are ignored; MessageEnd carries ToolUse exactly when the
accumulated calls are non-empty, else EndTurn. -/
theorem ollama_tool_calls_flushed_once_after_done
    (parseChunk : String → Option OllamaChatChunk)
    (pre : List String) (fin : String) (post : List String)
    (finChunk : OllamaChatChunk)
    (hpre : ∀ l ∈ pre, ∀ c, parseChunk l = some c → c.done = false)
    (hfin : parseChunk fin = some finChunk)
    (hfinNe : fin ≠ "")
    (hdone : finChunk.done = true) :
    runOllamaLines parseChunk ollamaInit (pre ++ fin :: post) =
      { accumulated_tool_calls := [],
        pending :=
          (pre.map (ollamaLineTextEvents parseChunk)).flatten ++
          (if finChunk.message.content = "" then []
           else [.ok (.textDelta finChunk.message.content)]) ++
          ollamaToolUseEvents 0
            ((pre.map (ollamaLineCalls parseChunk)).flatten ++
              finChunk.message.tool_calls.getD []) ++
          (if finChunk.prompt_eval_count > 0 || finChunk.eval_count > 0 then
            [.ok (.usageUpdate finChunk.prompt_eval_count finChunk.eval_count 0 0)]
           else []) ++
          [.ok (.messageEnd
            (if ((pre.map (ollamaLineCalls parseChunk)).flatten ++
                  finChunk.message.tool_calls.getD []).isEmpty then
              StopReason.endTurn else StopReason.toolUse))],
        finished := true,
        next_id :=
          ((pre.map (ollamaLineCalls parseChunk)).flatten ++
            finChunk.message.tool_calls.getD []).length } := by
  have h1 := ollama_pre_phase parseChunk pre (fin :: post) [] [] 0 hpre
  simp only [List.nil_append] at h1
  show runOllamaLines parseChunk ⟨[], [], false, 0⟩ (pre ++ fin :: post) = _
  rw [h1]
  simp only [runOllamaLines]
  rw [if_neg (by simp), if_neg hfinNe]
  rw [ollama_step_done parseChunk fin _ _ 0 finChunk hfin hdone]
  rw [ollama_finished_absorbs parseChunk post _ (by rfl)]
  simp [List.append_assoc]

/-- Claim C3 (counterexample): a stream whose message_delta carries a
stop_reason and which then sends message_stop — the shape every well-formed
Anthropic stream has — makes the translator emit two MessageEnd events, not
exactly one: process_sse_event pushes one MessageEnd per signal with no
deduplication. -/
theorem anthropic_two_message_ends :
    anthropicOutput c3Parse c3Input =
      [.ok (.messageEnd .endTurn), .ok (.messageEnd .endTurn)] ∧
    countMessageEnds (anthropicOutput c3Parse c3Input) = 2 :=
  ⟨rfl, rfl⟩

theorem anth_step_me_count (parse : String → Option Json) (st : AnthropicState)
    (ev : SseEvent) :
    countMessageEnds (anthropic_process_sse_event parse st ev).pending =
      countMessageEnds st.pending + anthMeCount parse ev := by
  rcases ev with ⟨et, data⟩
  rcases et with _ | s <;>
    simp only [anthropic_process_sse_event, anthMeCount, Option.getD_none,
      Option.getD_some, reduceCtorEq, Option.some.injEq, if_false] <;>
    split_ifs <;>
    (repeat' split) <;>
    simp_all [countMessageEnds, List.countP_append, List.countP_cons]

theorem anth_run_me_count (parse : String → Option Json) (evs : List SseEvent) :
    ∀ st : AnthropicState,
      countMessageEnds (runAnthropic parse st evs).pending =
        countMessageEnds st.pending + (evs.map (anthMeCount parse)).sum := by
  induction evs with
  | nil => intro st; simp [runAnthropic]
  | cons e es ih =>
      intro st
      simp only [runAnthropic, List.foldl_cons] at *
      rw [ih (anthropic_process_sse_event parse st e), anth_step_me_count]
      simp [Nat.add_assoc]

theorem anth_step_ok (parse : String → Option Json) (st : AnthropicState)
    (ev : SseEvent) (hev : ev.event_type ≠ some "error")
    (hok : ∀ x ∈ st.pending, isOkItem x) :
    ∀ x ∈ (anthropic_process_sse_event parse st ev).pending, isOkItem x := by
  rcases ev with ⟨et, data⟩
  rcases et with _ | s
  · simp only [anthropic_process_sse_event, Option.getD_none] at *
    split_ifs <;> (repeat' split) <;> simp_all [isOkItem]
  · have hs : s ≠ "error" := by
      intro h
      exact hev (by simp [h])
    simp only [anthropic_process_sse_event, Option.getD_some] at *
    split_ifs <;> (repeat' split) <;> (try simp_all [isOkItem]) <;>
      (first
        | (rintro x (hx | rfl)
           · exact hok x hx
           · rfl)
        | (rintro x (hx | rfl | rfl)
           · exact hok x hx
           · rfl
           · rfl))

theorem anth_run_ok (parse : String → Option Json) (evs : List SseEvent) :
    ∀ st : AnthropicState,
      (∀ e ∈ evs, e.event_type ≠ some "error") →
      (∀ x ∈ st.pending, isOkItem x) →
      ∀ x ∈ (runAnthropic parse st evs).pending, isOkItem x := by
  induction evs with
  | nil => intro st _ hok; exact hok
  | cons e es ih =>
      intro st hev hok
      simp only [runAnthropic, List.foldl_cons]
      exact ih _ (fun x hx => hev x (by simp [hx]))
        (anth_step_ok parse st e (hev e (by simp)) hok)

theorem truncAtError_all_ok (l : List (Except String AgentEvent))
    (h : ∀ x ∈ l, isOkItem x) : truncAtError l = l := by
  induction l with
  | nil => rfl
  | cons x rest ih =>
      cases x with
      | ok e => simp only [truncAtError]; rw [ih (fun y hy => h y (by simp [hy]))]
      | error e => exact absurd (h (.error e) (by simp)) (by simp [isOkItem])

/-- Claim C3 (amended): for every error-free provider-native input sequence,
the Anthropic translator emits one MessageEnd per message_delta event whose
data carries a stop_reason plus one per message_stop event — so a stream
with a single terminal signal is terminated by exactly one MessageEnd, but a
stream containing both a message_delta with a stop_reason and a subsequent
message_stop yields two. -/
theorem anthropic_message_end_count (parse : String → Option Json)
    (evs : List SseEvent) (h : ∀ e ∈ evs, e.event_type ≠ some "error") :
    countMessageEnds (anthropicOutput parse evs) =
      (evs.map (anthMeCount parse)).sum := by
  unfold anthropicOutput
  rw [truncAtError_all_ok _ (anth_run_ok parse evs anthropicInit h (by simp [anthropicInit]))]
  rw [anth_run_me_count]
  simp [anthropicInit, countMessageEnds]

/-- Witness for the amended C3 theorem: a single message_stop yields exactly
one MessageEnd. -/
theorem anthropic_message_end_count_witness :
    countMessageEnds
      (anthropicOutput (fun _ => none)
        [{ event_type := some "message_stop", data := "" }]) = 1 := by
  have h := anthropic_message_end_count (fun _ => none)
    [{ event_type := some "message_stop", data := "" }] (by decide)
  exact h.trans (by rfl)

theorem mkToolUseStart_type (id name : String) :
    (((mkToolUseStart id name).getField "content_block").getField "type").asStr =
      some "tool_use" := rfl

theorem mkInputJsonDelta_type (frag : String) :
    (((mkInputJsonDelta frag).getField "delta").getField "type").asStr =
      some "input_json_delta" := rfl

theorem anth_delta_accum (parse : String → Option Json) (deltas : List (String × String))
    (id name : String) :
    ∀ acc : String,
      (∀ p ∈ deltas, parse p.1 = some (mkInputJsonDelta p.2)) →
      runAnthropic parse
        { current_tool_id := some id, current_tool_name := some name,
          current_tool_input_json := acc, in_thinking_block := false,
          pending := [], done := false }
        (deltas.map fun p => { event_type := some "content_block_delta", data := p.1 }) =
        { current_tool_id := some id, current_tool_name := some name,
          current_tool_input_json := acc ++ concatStrings (deltas.map Prod.snd),
          in_thinking_block := false, pending := [], done := false } := by
  induction deltas with
  | nil => intro acc _; simp [runAnthropic, concatStrings]
  | cons p ps ih =>
      intro acc h
      have hp : parse p.1 = some (mkInputJsonDelta p.2) := h p (by simp)
      simp only [List.map_cons, runAnthropic, List.foldl_cons]
      have hstep :
          anthropic_process_sse_event parse
            { current_tool_id := some id, current_tool_name := some name,
              current_tool_input_json := acc, in_thinking_block := false,
              pending := [], done := false }
            { event_type := some "content_block_delta", data := p.1 } =
          { current_tool_id := some id, current_tool_name := some name,
            current_tool_input_json := acc ++ p.2, in_thinking_block := false,
            pending := [], done := false } := by
        simp only [anthropic_process_sse_event, hp]
        rfl
      rw [hstep]
      have := ih (acc ++ p.2) (fun q hq => h q (by simp [hq]))
      simp only [runAnthropic] at this
      rw [this]
      simp [concatStrings, String.append_assoc]

/-- Claim C5: a content_block_start(tool_use) carrying id and name, followed
by any sequence of input_json_delta fragments and a content_block_stop,
yields exactly one ToolUse whose input is the JSON parse of the concatenated
fragments (empty-object fallback when that parse fails), and nothing is
emitted before the content_block_stop. -/
theorem anthropic_single_tool_use (parse : String → Option Json)
    (id name startData stopData : String) (deltas : List (String × String))
    (h1 : parse startData = some (mkToolUseStart id name))
    (h2 : ∀ p ∈ deltas, parse p.1 = some (mkInputJsonDelta p.2)) :
    (runAnthropic parse anthropicInit
        ({ event_type := some "content_block_start", data := startData } ::
          deltas.map (fun p => { event_type := some "content_block_delta", data := p.1 }))).pending
      = [] ∧
    anthropicOutput parse
        ({ event_type := some "content_block_start", data := startData } ::
          (deltas.map (fun p => { event_type := some "content_block_delta", data := p.1 }) ++
            [{ event_type := some "content_block_stop", data := stopData }])) =
      [.ok (.toolUse id name
        ((parse (concatStrings (deltas.map Prod.snd))).getD (.obj [])))] := by
  have hstart :
      anthropic_process_sse_event parse anthropicInit
        { event_type := some "content_block_start", data := startData } =
      { current_tool_id := some id, current_tool_name := some name,
        current_tool_input_json := "", in_thinking_block := false,
        pending := [], done := false } := by
    simp only [anthropic_process_sse_event, anthropicInit, h1]
    rfl
  have haccum := anth_delta_accum parse deltas id name "" h2
  constructor
  · simp only [runAnthropic, List.foldl_cons]
    rw [show (List.foldl (anthropic_process_sse_event parse)
        (anthropic_process_sse_event parse anthropicInit
          { event_type := some "content_block_start", data := startData })
        (deltas.map fun p => { event_type := some "content_block_delta", data := p.1 })) =
      runAnthropic parse
        (anthropic_process_sse_event parse anthropicInit
          { event_type := some "content_block_start", data := startData })
        (deltas.map fun p => { event_type := some "content_block_delta", data := p.1 })
      from rfl]
    rw [hstart, haccum]
  · unfold anthropicOutput
    simp only [runAnthropic, List.foldl_cons, List.foldl_append]
    rw [show (List.foldl (anthropic_process_sse_event parse)
        (anthropic_process_sse_event parse anthropicInit
          { event_type := some "content_block_start", data := startData })
        (deltas.map fun p => { event_type := some "content_block_delta", data := p.1 })) =
      runAnthropic parse
        (anthropic_process_sse_event parse anthropicInit
          { event_type := some "content_block_start", data := startData })
        (deltas.map fun p => { event_type := some "content_block_delta", data := p.1 })
      from rfl]
    rw [hstart, haccum]
    simp only [List.foldl_cons, List.foldl_nil]
    simp [anthropic_process_sse_event, truncAtError]

/-- Witness for C5: one fragment that is not valid JSON falls back to the
empty object. -/
theorem anthropic_single_tool_use_witness :
    anthropicOutput
      (fun s =>
        if s = "S" then some (mkToolUseStart "t1" "bash")
        else if s = "D1" then some (mkInputJsonDelta "notjson")
        else none)
      [{ event_type := some "content_block_start", data := "S" },
       { event_type := some "content_block_delta", data := "D1" },
       { event_type := some "content_block_stop", data := "" }] =
      [.ok (.toolUse "t1" "bash" (.obj []))] := by
  have h := (anthropic_single_tool_use
    (fun s =>
      if s = "S" then some (mkToolUseStart "t1" "bash")
      else if s = "D1" then some (mkInputJsonDelta "notjson")
      else none)
    "t1" "bash" "S" "" [("D1", "notjson")] (by rfl)
    (by
      intro p hp
      simp at hp
      subst hp
      rfl)).2
  exact h.trans (by rfl)

theorem lookup_setFieldA (fs : List (String × Json)) (k : String) (v : Json)
    (k2 : String) :
    (setFieldA fs k v).lookup k2 = if k2 = k then some v else fs.lookup k2 := by
  induction fs with
  | nil =>
      by_cases h : k2 = k <;>
        simp [setFieldA, List.lookup_cons, h, beq_false_of_ne, List.lookup]
  | cons p ps ih =>
      obtain ⟨a, b⟩ := p
      by_cases h1 : a = k
      · subst h1
        by_cases h3 : k2 = a <;>
          simp [setFieldA, List.lookup_cons, h3, beq_false_of_ne]
      · by_cases h2 : k2 = a
        · subst h2
          simp [setFieldA, h1, List.lookup_cons, Ne.symm h1, ih]
        · simp [setFieldA, h1, List.lookup_cons, beq_false_of_ne h2, h2, ih]

theorem lookupField_setField (fs : List (String × Json)) (k : String) (v : Json)
    (k2 : String) :
    (Json.setField (.obj fs) k v).lookupField k2 =
      if k2 = k then some v else (Json.obj fs).lookupField k2 := by
  simp [Json.setField, Json.lookupField, lookup_setFieldA]

theorem lookupField_ite (c : Prop) [Decidable c] (a b : Json) (k : String) :
    (if c then a else b).lookupField k =
      if c then a.lookupField k else b.lookupField k :=
  apply_ite (fun j => Json.lookupField j k) c a b

theorem lookupField_obj (fs : List (String × Json)) (k : String) :
    (Json.obj fs).lookupField k = fs.lookup k := rfl

theorem setField_ite (c : Prop) [Decidable c] (a b : Json) (k : String) (v : Json) :
    (if c then a else b).setField k v =
      if c then a.setField k v else b.setField k v :=
  apply_ite (fun j => Json.setField j k v) c a b

theorem setField_obj (fs : List (String × Json)) (k : String) (v : Json) :
    (Json.obj fs).setField k v = .obj (setFieldA fs k v) := rfl

/-- Claim C6: the Anthropic request builder enables thinking iff
thinking_budget is present and positive; when enabled, the max_tokens field
equals thinking_budget + the requested max_tokens and temperature is omitted
even when requested; when not enabled, max_tokens equals the requested
max_tokens and a requested temperature is included. -/
theorem anthropic_thinking_request_fields (request : ChatRequestM) :
    (((build_request_body request).lookupField "thinking").isSome ↔
      ∃ b, request.thinking_budget = some b ∧ 0 < b) ∧
    (∀ b, request.thinking_budget = some b → 0 < b →
      (build_request_body request).lookupField "max_tokens" =
        some (.num ((b : ℚ) + (request.max_tokens : ℚ))) ∧
      (build_request_body request).lookupField "temperature" = none) ∧
    ((request.thinking_budget = none ∨ request.thinking_budget = some 0) →
      (build_request_body request).lookupField "max_tokens" =
        some (.num (request.max_tokens : ℚ)) ∧
      (build_request_body request).lookupField "temperature" =
        request.temperature.map Json.num) := by
  obtain ⟨msgs, sys, tools, modl, maxtok, temp, tb⟩ := request
  rcases tb with _ | b
  · rcases temp with _ | t <;>
      simp [build_request_body, lookupField_ite, setField_ite, setField_obj,
        lookupField_obj, lookup_setFieldA, List.lookup_cons]
  · rcases Nat.eq_zero_or_pos b with rfl | hb
    · rcases temp with _ | t <;>
        simp [build_request_body, lookupField_ite, setField_ite, setField_obj,
          lookupField_obj, lookup_setFieldA, List.lookup_cons]
    · have hb' : ¬ b = 0 := Nat.pos_iff_ne_zero.mp hb
      rcases temp with _ | t <;>
        simp [build_request_body, lookupField_ite, setField_ite, setField_obj,
          lookupField_obj, lookup_setFieldA, List.lookup_cons, hb, hb',
          Nat.cast_add]

/-- Witness for C6 at a concrete request: budget 5, requested max_tokens
1024, requested temperature present. -/
theorem anthropic_thinking_request_fields_witness :
    (build_request_body
      { messages := [], system_prompt := "", tools := [], model := "m",
        max_tokens := 1024, temperature := some (7/10),
        thinking_budget := some 5 }).lookupField "max_tokens" =
      some (.num ((5 : ℚ) + (1024 : ℚ))) ∧
    (build_request_body
      { messages := [], system_prompt := "", tools := [], model := "m",
        max_tokens := 1024, temperature := some (7/10),
        thinking_budget := some 5 }).lookupField "temperature" = none :=
  (anthropic_thinking_request_fields
    { messages := [], system_prompt := "", tools := [], model := "m",
      max_tokens := 1024, temperature := some (7/10),
      thinking_budget := some 5 }).2.1 5 rfl (by decide)

instance : IsTotal (Nat × ToolAcc) (fun a b => a.1 ≤ b.1) :=
  ⟨fun a b => Nat.le_total a.1 b.1⟩

instance : IsTrans (Nat × ToolAcc) (fun a b => a.1 ≤ b.1) :=
  ⟨fun _ _ _ => Nat.le_trans⟩

/-- Claim C4: when a chunk carries a finish_reason mapping to ToolUse, the
translator appends the accumulated tool calls (after merging this chunk's
own delta and usage sections) as ToolUse events sorted in ascending
stream-index order — a permutation of the accumulator, so each call exactly
once — followed by the MessageEnd, and clears the accumulator; an argument
string that fails to parse yields a ToolUse whose payload carries the raw
string and the parse error (emitToolInput), not a dropped call. -/
theorem openai_flush_on_tool_calls (pj : String → Except String Json)
    (st : OpenAiState) (ev : SseEvent) (chunk : Json) (reason : String)
    (hdone : rustTrim ev.data ≠ "[DONE]")
    (hp : pj ev.data = .ok chunk)
    (hf : (((chunk.getField "choices").getIdx 0).getField "finish_reason").asStr =
      some reason)
    (hr : parse_finish_reason reason = .toolUse) :
    openai_process_sse_event pj st ev =
      { tool_calls := [],
        pending := (oaiApplyUsage chunk (oaiApplyDelta chunk st)).pending ++
          (oaiSortCalls (oaiApplyUsage chunk (oaiApplyDelta chunk st)).tool_calls).map
            (fun e => .ok (.toolUse e.2.id e.2.name (emitToolInput pj e.2))) ++
          [.ok (.messageEnd .toolUse)],
        done := (oaiApplyUsage chunk (oaiApplyDelta chunk st)).done } ∧
    (oaiSortCalls (oaiApplyUsage chunk (oaiApplyDelta chunk st)).tool_calls).Perm
      (oaiApplyUsage chunk (oaiApplyDelta chunk st)).tool_calls ∧
    List.Sorted (· ≤ ·)
      ((oaiSortCalls (oaiApplyUsage chunk (oaiApplyDelta chunk st)).tool_calls).map
        Prod.fst) := by
  refine ⟨?_, List.perm_insertionSort _ _, ?_⟩
  · simp only [openai_process_sse_event, if_neg hdone, hp]
    simp only [oaiApplyFinish, hf, hr, flushToolCalls]
    simp [List.append_assoc]
  · have hs : List.Sorted (fun a b => a.1 ≤ b.1)
        (oaiSortCalls (oaiApplyUsage chunk (oaiApplyDelta chunk st)).tool_calls) :=
      List.sorted_insertionSort _ _
    exact List.Pairwise.map Prod.fst (fun a b h => h) hs

/-- Witness for C4: two accumulated calls at indices 1 and 0 whose argument
strings fail to parse are flushed in ascending index order with
raw-string-plus-error payloads, then MessageEnd. -/
theorem openai_flush_witness :
    openai_process_sse_event c4Pj c4St { event_type := none, data := "F" } =
      { tool_calls := [],
        pending :=
          [.ok (.toolUse "a" "t1"
            (.obj [("_parse_error", .str "bad json"), ("_raw_args", .str "x")])),
           .ok (.toolUse "b" "t2"
            (.obj [("_parse_error", .str "bad json"), ("_raw_args", .str "y")])),
           .ok (.messageEnd .toolUse)],
        done := false } := by
  have h := (openai_flush_on_tool_calls c4Pj c4St { event_type := none, data := "F" }
    (.obj [("choices", .arr [.obj [("finish_reason", .str "tool_calls")]])])
    "tool_calls" (by decide) (by rfl) (by rfl) (by rfl)).1
  exact h.trans (by rfl)

/-- Witness for C2: one done:false chunk with text and a tool call, a
done:true chunk with usage, a trailing ignored line. -/
theorem ollama_flush_witness :
    runOllamaLines c2Parse ollamaInit ["a", "b", "c"] =
      { accumulated_tool_calls := [],
        pending := [.ok (.textDelta "hi"),
          .ok (.toolUse "ollama_call_0" "bash" (.str "x")),
          .ok (.usageUpdate 3 5 0 0),
          .ok (.messageEnd .toolUse)],
        finished := true,
        next_id := 1 } := by
  have h := ollama_tool_calls_flushed_once_after_done c2Parse ["a"] "b" ["c"] c2FinChunk
    (by
      intro l hl c hc
      simp at hl
      subst hl
      simp [c2Parse] at hc
      subst hc
      rfl)
    (by simp [c2Parse])
    (by decide)
    rfl
  exact h.trans (by rfl)

/-- Witness for C8 at a concrete eight-message history and a provider that
always fails. -/
theorem compact_messages_fallback_witness :
    compact_messages failingProvider eightMessages "m" "sys" =
      .ok (MessageM.user "0" :: eightMessages.drop 2) :=
  (compact_messages_never_errors_and_fallback failingProvider eightMessages
      "m" "sys").2
    (MessageM.user "0")
    [MessageM.user "1", MessageM.user "2", MessageM.user "3",
     MessageM.user "4", MessageM.user "5", MessageM.user "6", MessageM.user "7"]
    "boom" rfl (by decide) rfl

end OpenClaw
